import Mathlib

/-!
Verification of the Career Guidance form application (src/app.py).

Strings of the Python program are embedded as `List Char`.  The external
collaborators — the generative-model call (`model.generate_content`), the
`datetime` library and the reportlab PDF builder — are modelled as inputs:
an `ApiResponse` describing how the external call ended, an instant carrying
both its microsecond value and its strftime rendering, and a flag saying
whether reportlab's document construction threw.  Everything else (the
sanitizer, validator, throttle checks, session-state mutation, history
store, exporters) is translated directly from the source.
-/

/-! ### Sanitizer: `clean_input` (app.py lines 39-41)

`re.sub(r'[^\w\s@.,-]', '', text).strip() if text else ""` -/

/-- A regex `\w` character (word character): alphanumeric or underscore. -/
def isWordChar (c : Char) : Bool := c.isAlphanum || c == '_'

/-- A regex `\s` character (ASCII whitespace as Python's `\s` and `strip`). -/
def isSpaceChar (c : Char) : Bool :=
  c == ' ' || c == '\t' || c == '\n' || c == '\r' || c == Char.ofNat 11 || c == Char.ofNat 12

/-- A character the sanitizer keeps: the regex class `[\w\s@.,-]`. -/
def isAllowedChar (c : Char) : Bool :=
  isWordChar c || isSpaceChar c || c == '@' || c == '.' || c == ',' || c == '-'

/-- Remove leading whitespace (the left half of Python's `str.strip`). -/
def lstrip : List Char → List Char
  | [] => []
  | c :: t => if isSpaceChar c then lstrip t else c :: t

/-- Remove trailing whitespace (the right half of Python's `str.strip`). -/
def rstrip (l : List Char) : List Char := (lstrip l.reverse).reverse

/-- Python's `str.strip()`: drop whitespace at both ends. -/
def pstrip (l : List Char) : List Char := rstrip (lstrip l)

/-- `clean_input` (app.py line 41): drop every character outside
`[\w\s@.,-]`, then strip; a falsy (empty) input yields the empty string. -/
def clean_input (text : List Char) : List Char :=
  if text = [] then [] else pstrip (text.filter isAllowedChar)

/-- `clean_input` on a possibly-null argument: `if text else ""` maps
Python `None` to the empty string as well. -/
def clean_inputOpt : Option (List Char) → List Char
  | none => []
  | some t => clean_input t

theorem lstrip_head_not_space :
    ∀ (l : List Char) (c : Char) (t : List Char),
      lstrip l = c :: t → isSpaceChar c = false := by
  intro l
  induction l with
  | nil => intro c t h; simp [lstrip] at h
  | cons a as ih =>
    intro c t h
    cases hsp : isSpaceChar a with
    | true => rw [lstrip, if_pos hsp] at h; exact ih c t h
    | false =>
      rw [lstrip, if_neg (by simp [hsp])] at h
      cases h; exact hsp

theorem lstrip_of_not_space {c : Char} (t : List Char) (h : isSpaceChar c = false) :
    lstrip (c :: t) = c :: t := by
  rw [lstrip, if_neg (by simp [h])]

theorem lstrip_idem (l : List Char) : lstrip (lstrip l) = lstrip l := by
  cases h : lstrip l with
  | nil => rfl
  | cons c t => exact lstrip_of_not_space t (lstrip_head_not_space l c t h)

theorem mem_lstrip {c : Char} : ∀ l : List Char, c ∈ lstrip l → c ∈ l := by
  intro l
  induction l with
  | nil => intro h; simp [lstrip] at h
  | cons a as ih =>
    intro h
    cases hsp : isSpaceChar a with
    | true =>
      rw [lstrip, if_pos hsp] at h
      exact List.mem_cons_of_mem a (ih h)
    | false =>
      rw [lstrip, if_neg (by simp [hsp])] at h
      exact h

theorem lstrip_drop : ∀ l : List Char, ∃ k, lstrip l = l.drop k := by
  intro l
  induction l with
  | nil => exact ⟨0, rfl⟩
  | cons a as ih =>
    cases hsp : isSpaceChar a with
    | true =>
      obtain ⟨k, hk⟩ := ih
      exact ⟨k + 1, by rw [lstrip, if_pos hsp, hk]; rfl⟩
    | false => exact ⟨0, by rw [lstrip, if_neg (by simp [hsp])]; rfl⟩

theorem rstrip_take (l : List Char) : ∃ j, rstrip l = l.take j := by
  obtain ⟨k, hk⟩ := lstrip_drop l.reverse
  refine ⟨l.length - k, ?_⟩
  rw [rstrip, hk, List.reverse_drop, List.reverse_reverse, List.length_reverse]

theorem head_eq_of_take {l : List Char} {j : Nat} {c : Char} {t : List Char}
    (h : l.take j = c :: t) : ∃ t2, l = c :: t2 := by
  cases l with
  | nil => simp at h
  | cons a as =>
    cases j with
    | zero => simp at h
    | succ j =>
      rw [List.take_succ_cons] at h
      cases h
      exact ⟨as, rfl⟩

theorem lstrip_rstrip (l : List Char) (h : lstrip l = l) :
    lstrip (rstrip l) = rstrip l := by
  cases hr : rstrip l with
  | nil => rfl
  | cons c t =>
    obtain ⟨j, hj⟩ := rstrip_take l
    obtain ⟨t2, ht2⟩ := head_eq_of_take (hj ▸ hr : l.take j = c :: t)
    have hc : isSpaceChar c = false :=
      lstrip_head_not_space l c t2 (by rw [h, ht2])
    exact lstrip_of_not_space t hc

theorem rstrip_idem (l : List Char) : rstrip (rstrip l) = rstrip l := by
  rw [rstrip, rstrip, List.reverse_reverse, lstrip_idem]

theorem pstrip_idem (l : List Char) : pstrip (pstrip l) = pstrip l := by
  rw [pstrip, pstrip, lstrip_rstrip (lstrip l) (lstrip_idem l), rstrip_idem]

theorem mem_rstrip {c : Char} (l : List Char) (h : c ∈ rstrip l) : c ∈ l := by
  rw [rstrip, List.mem_reverse] at h
  exact (List.mem_reverse).mp (mem_lstrip l.reverse h)

theorem mem_pstrip {c : Char} (l : List Char) (h : c ∈ pstrip l) : c ∈ l :=
  mem_lstrip l (mem_rstrip (lstrip l) h)

theorem clean_input_all_allowed (text : List Char) :
    (clean_input text).all isAllowedChar = true := by
  rw [clean_input]
  split
  · rfl
  · rw [List.all_eq_true]
    intro c hc
    exact (List.mem_filter.mp (mem_pstrip _ hc)).2

theorem pstrip_nil : pstrip [] = [] := rfl

theorem filter_eq_self_of_all {p : Char → Bool} :
    ∀ l : List Char, (∀ c ∈ l, p c = true) → l.filter p = l := by
  intro l
  induction l with
  | nil => intro _; rfl
  | cons a as ih =>
    intro h
    rw [List.filter_cons, if_pos (h a (List.mem_cons_self a as)),
      ih fun c hc => h c (List.mem_cons_of_mem a hc)]

theorem pstrip_clean_input (text : List Char) :
    pstrip (clean_input text) = clean_input text := by
  rw [clean_input]
  split
  · exact pstrip_nil
  · exact pstrip_idem _

theorem clean_input_idem (text : List Char) :
    clean_input (clean_input text) = clean_input text := by
  by_cases h0 : text = []
  · rw [h0]; rfl
  · by_cases h1 : clean_input text = []
    · rw [h1]; rfl
    · conv_lhs => rw [clean_input, if_neg h1]
      have hall : ∀ c ∈ clean_input text, isAllowedChar c = true := by
        intro c hc
        rw [clean_input, if_neg h0] at hc
        exact (List.mem_filter.mp (mem_pstrip _ hc)).2
      rw [filter_eq_self_of_all _ hall]
      exact pstrip_clean_input text

/-- C6: for every text input, `clean_input text` contains only characters of
the class `[\w\s@.,-]`; it carries no leading or trailing whitespace
(stripping it again is the identity); `clean_input` is idempotent; and a
null or empty input yields the empty string. -/
theorem clean_input_spec (text : List Char) :
    (clean_input text).all isAllowedChar = true ∧
    pstrip (clean_input text) = clean_input text ∧
    clean_input (clean_input text) = clean_input text ∧
    clean_inputOpt none = [] ∧
    clean_input [] = [] :=
  ⟨clean_input_all_allowed text, pstrip_clean_input text,
    clean_input_idem text, rfl, rfl⟩

/-! ### Validator: `validate_inputs` (app.py lines 43-56)

The Python function walks the keyword arguments (the five cleaned fields,
in the insertion order of the `cleaned` dict: user_name, education, skills,
goals, interests), appending a "too short" error when the length is below 3
and an "exceeds" error when it is above 500, and finally appends
"Invalid characters in name" when `kwargs.get('user_name', '')` matches
`[^\w\s@.,-]`. -/

/-- One step of Python's `str.title()`: upper-case a letter that follows a
non-letter, lower-case a letter that follows a letter. The Bool carries
whether the previous character was a letter. -/
def titleizeGo : Bool → List Char → List Char
  | _, [] => []
  | prevAlpha, c :: t =>
    (if c.isAlpha then (if prevAlpha then c.toLower else c.toUpper) else c) ::
      titleizeGo c.isAlpha t

/-- `field.replace('_', ' ').title()` of app.py lines 49 and 51. -/
def fieldTitle (f : List Char) : List Char :=
  titleizeGo false (f.map fun c => if c == '_' then ' ' else c)

/-- The error of app.py line 49. -/
def tooShortMsg (f : List Char) : List Char :=
  fieldTitle f ++ (" too short (min 3 chars)").toList

/-- The error of app.py line 51. -/
def exceedsMsg (f : List Char) : List Char :=
  fieldTitle f ++ (" exceeds 500 chars").toList

/-- The error of app.py line 54. -/
def invalidNameMsg : List Char := ("Invalid characters in name").toList

def userNameKey : List Char := ("user_name").toList

/-- The errors one iteration of the `for field, value in kwargs.items()`
loop appends (app.py lines 47-51). -/
def fieldErrors (f v : List Char) : List (List Char) :=
  (if v.length < 3 then [tooShortMsg f] else []) ++
    (if 500 < v.length then [exceedsMsg f] else [])

/-- The whole loop of app.py lines 47-51 over the keyword arguments. -/
def validateLoop : List (List Char × List Char) → List (List Char)
  | [] => []
  | p :: rest => fieldErrors p.1 p.2 ++ validateLoop rest

/-- `kwargs.get('user_name', '')` (app.py line 53). -/
def lookupField (k : List Char) (fields : List (List Char × List Char)) : List Char :=
  match fields.find? (fun p => p.1 == k) with
  | some p => p.2
  | none => []

/-- `re.search(r'[^\w\s@.,-]', v)` is truthy (app.py line 53). -/
def hasInvalidChar (v : List Char) : Bool := v.any (fun c => !isAllowedChar c)

/-- `validate_inputs` (app.py lines 43-56): the loop's errors, then the
user_name character check. -/
def validate_inputs (fields : List (List Char × List Char)) : List (List Char) :=
  validateLoop fields ++
    (if hasInvalidChar (lookupField userNameKey fields) then [invalidNameMsg] else [])

theorem tooShortMsg_ne_exceedsMsg (f : List Char) : tooShortMsg f ≠ exceedsMsg f := by
  intro h
  have h2 := congrArg List.length h
  have e1 : ((" too short (min 3 chars)").toList).length = 24 := by decide
  have e2 : ((" exceeds 500 chars").toList).length = 18 := by decide
  rw [tooShortMsg, exceedsMsg, List.length_append, List.length_append, e1, e2] at h2
  omega

theorem mem_tooShort_iff (f v : List Char) :
    tooShortMsg f ∈ fieldErrors f v ↔ v.length < 3 := by
  rw [fieldErrors]
  by_cases h1 : v.length < 3 <;> by_cases h2 : 500 < v.length <;>
    simp [h1, h2, tooShortMsg_ne_exceedsMsg f]

theorem mem_exceeds_iff (f v : List Char) :
    exceedsMsg f ∈ fieldErrors f v ↔ 500 < v.length := by
  rw [fieldErrors]
  by_cases h1 : v.length < 3 <;> by_cases h2 : 500 < v.length <;>
    simp [h1, h2, (tooShortMsg_ne_exceedsMsg f).symm]

theorem fieldErrors_eq_nil_iff (f v : List Char) :
    fieldErrors f v = [] ↔ (3 ≤ v.length ∧ v.length ≤ 500) := by
  rw [fieldErrors]
  by_cases h1 : v.length < 3 <;> by_cases h2 : 500 < v.length <;>
    simp [h1, h2] <;> omega

theorem validateLoop_eq_nil_iff (fields : List (List Char × List Char)) :
    validateLoop fields = [] ↔
      ∀ p ∈ fields, 3 ≤ p.2.length ∧ p.2.length ≤ 500 := by
  induction fields with
  | nil => simp [validateLoop]
  | cons p rest ih =>
    rw [validateLoop, List.append_eq_nil, ih]
    constructor
    · rintro ⟨h1, h2⟩ q hq
      rcases List.mem_cons.mp hq with h | h
      · rw [h]; exact (fieldErrors_eq_nil_iff p.1 p.2).mp h1
      · exact h2 q h
    · intro h
      exact ⟨(fieldErrors_eq_nil_iff p.1 p.2).mpr (h p (List.mem_cons_self p rest)),
        fun q hq => h q (List.mem_cons_of_mem p hq)⟩

theorem hasInvalidChar_eq_false_of_all {v : List Char}
    (h : v.all isAllowedChar = true) : hasInvalidChar v = false := by
  rw [hasInvalidChar]
  rw [List.all_eq_true] at h
  rw [List.any_eq_false]
  intro c hc
  simp [h c hc]

theorem lookupField_all_allowed {fields : List (List Char × List Char)}
    (hsan : fields.all (fun p => p.2.all isAllowedChar) = true) (k : List Char) :
    (lookupField k fields).all isAllowedChar = true := by
  rw [lookupField]
  cases hf : fields.find? (fun p => p.1 == k) with
  | none => rfl
  | some p =>
    rw [List.all_eq_true] at hsan
    exact hsan p (List.mem_of_find?_eq_some hf)

/-- C5: for every field with value `v`, the loop emits the "too short (min 3
chars)" error iff the length is below 3 and the "exceeds 500 chars" error iff
the length is above 500, never both; and, for sanitized fields (all
characters in the sanitizer's class, so the name-character check cannot
fire), `validate_inputs` returns the empty list iff every field's length
lies in [3, 500]. -/
theorem validate_inputs_spec (f v : List Char)
    (fields : List (List Char × List Char))
    (hsan : fields.all (fun p => p.2.all isAllowedChar) = true) :
    (tooShortMsg f ∈ fieldErrors f v ↔ v.length < 3) ∧
    (exceedsMsg f ∈ fieldErrors f v ↔ 500 < v.length) ∧
    ¬(tooShortMsg f ∈ fieldErrors f v ∧ exceedsMsg f ∈ fieldErrors f v) ∧
    (validate_inputs fields = [] ↔
      ∀ p ∈ fields, 3 ≤ p.2.length ∧ p.2.length ≤ 500) := by
  refine ⟨mem_tooShort_iff f v, mem_exceeds_iff f v, ?_, ?_⟩
  · rintro ⟨h1, h2⟩
    rw [mem_tooShort_iff] at h1
    rw [mem_exceeds_iff] at h2
    omega
  · rw [validate_inputs,
      hasInvalidChar_eq_false_of_all (lookupField_all_allowed hsan userNameKey)]
    simp only [Bool.false_eq_true, if_false, List.append_nil]
    exact validateLoop_eq_nil_iff fields

/-- Witness for `validate_inputs_spec`: the five demo fields of the spec's
scenario, already sanitized, at concrete values. -/
theorem validate_inputs_spec_witness :
    (let fields := [(("user_name").toList, ("Jane Doe").toList),
      (("education").toList, ("BTech CSE").toList),
      (("skills").toList, ("Python").toList),
      (("goals").toList, ("AI Engineer").toList),
      (("interests").toList, ("Machine Learning").toList)]
     fields.all (fun p => p.2.all isAllowedChar) = true ∧
      ((tooShortMsg (("user_name").toList) ∈
          fieldErrors (("user_name").toList) (("Jane Doe").toList) ↔
            (("Jane Doe").toList).length < 3) ∧
        (exceedsMsg (("user_name").toList) ∈
          fieldErrors (("user_name").toList) (("Jane Doe").toList) ↔
            500 < (("Jane Doe").toList).length) ∧
        ¬(tooShortMsg (("user_name").toList) ∈
            fieldErrors (("user_name").toList) (("Jane Doe").toList) ∧
          exceedsMsg (("user_name").toList) ∈
            fieldErrors (("user_name").toList) (("Jane Doe").toList)) ∧
        (validate_inputs fields = [] ↔
          ∀ p ∈ fields, 3 ≤ p.2.length ∧ p.2.length ≤ 500))) :=
  ⟨by decide, validate_inputs_spec (("user_name").toList) (("Jane Doe").toList) _ (by decide)⟩

/-! ### Session state, throttle and Advice Client (app.py lines 26-105, 261-295)

The five form fields are kept in the insertion order the `cleaned` dict
comprehension produces (the module namespace inserts user_name, education,
skills, goals, interests in that order). Timestamps are microsecond counts;
`(datetime.now() - last_request).seconds` is the timedelta seconds
component, a value below 86400. -/

structure ProfileFields where
  user_name : List Char
  education : List Char
  skills : List Char
  goals : List Char
  interests : List Char
deriving DecidableEq

structure HistoryEntry where
  name : List Char
  timestamp : List Char
  inputs : ProfileFields
  advice : List Char
deriving DecidableEq

/-- The session state `required_states` initializes (app.py lines 27-33);
`show_main` is presentation only and not part of the verified slice. -/
structure SessionState where
  history : List HistoryEntry
  api_errors : Nat
  last_request : Option Nat
  error : Bool
deriving DecidableEq

/-- The fresh session state of app.py lines 27-33. -/
def initialSession : SessionState :=
  { history := [], api_errors := 0, last_request := none, error := false }

/-- `timedelta.seconds` of an elapsed time of `us` microseconds: the whole
seconds, modulo one day (timedelta normalizes into days/seconds/microseconds). -/
def tdSeconds (us : Nat) : Nat := (us / 1000000) % 86400

/-- The rate-limit condition of app.py line 266:
`st.session_state.last_request and (datetime.now() - st.session_state.last_request).seconds < 5`. -/
def rateLimited (last_request : Option Nat) (nowUs : Nat) : Bool :=
  match last_request with
  | none => false
  | some t => decide (tdSeconds (nowUs - t) < 5)

/-- How the external `model.generate_content` call ends: it returns a
response whose `.text` may be empty, raises the service-level
`GenerativeServiceError`, or raises some other exception. -/
inductive ApiResponse where
  | text (t : List Char)
  | serviceError (details : List Char)
  | otherError
deriving DecidableEq

/-- The advisory string returned on `GenerativeServiceError` (app.py line 100). -/
def apiErrorMsg (details : List Char) : List Char :=
  ("🚨 API Error: Service unavailable. Please try again later. Details: ").toList
    ++ details

/-- `get_career_advice` (app.py lines 58-105).  The four field arguments feed
only the prompt string, data handed verbatim to the external model and not
further inspected, so the result depends on how the external call ends:
an empty `response.text` raises `ValueError`, which the generic handler
catches (sets the session error flag) and re-raises (`none` = the exception
propagates to the caller); `GenerativeServiceError` increments `api_errors`
and RETURNS the advisory string; any other exception sets the error flag
and re-raises. -/
def get_career_advice (s : SessionState)
    (interests skills education goals : List Char) (resp : ApiResponse) :
    SessionState × Option (List Char) :=
  match resp with
  | .text t => if t = [] then ({ s with error := true }, none) else (s, some t)
  | .serviceError d => ({ s with api_errors := s.api_errors + 1 }, some (apiErrorMsg d))
  | .otherError => ({ s with error := true }, none)

/-- One form submission as the handler sees it: the five raw text inputs,
the instant of the submission (`datetime.now()` as microseconds plus its
strftime("%d %b %Y %H:%M") rendering, both produced by the datetime
library), and how the external generate call would end if reached. -/
structure FormRequest where
  raw : ProfileFields
  nowUs : Nat
  nowFmt : List Char
  resp : ApiResponse
deriving DecidableEq

/-- `all([user_name, interests, skills, education, goals])` (app.py line 270):
Python truthiness of a string is non-emptiness. -/
def allFieldsFilled (r : ProfileFields) : Bool :=
  !r.user_name.isEmpty && !r.interests.isEmpty && !r.skills.isEmpty &&
    !r.education.isEmpty && !r.goals.isEmpty

/-- The `cleaned` dict comprehension (app.py lines 273-274). -/
def cleanedFields (r : ProfileFields) : ProfileFields :=
  { user_name := clean_input r.user_name
    education := clean_input r.education
    skills := clean_input r.skills
    goals := clean_input r.goals
    interests := clean_input r.interests }

/-- The keyword arguments `validate_inputs(**cleaned)` receives, in the
`cleaned` dict's insertion order. -/
def fieldsList (p : ProfileFields) : List (List Char × List Char) :=
  [(("user_name").toList, p.user_name), (("education").toList, p.education),
    (("skills").toList, p.skills), (("goals").toList, p.goals),
    (("interests").toList, p.interests)]

/-- The observable steps of one submission, in execution order. -/
inductive Ev where
  | errCountCheck
  | rateCheck
  | emptyCheck
  | sanitizeEv
  | validateEv
  | adviceCall
  | historyAppend
deriving DecidableEq

/-- How one submission ends. -/
inductive FormResult where
  | stoppedTooManyErrors
  | stoppedRateLimited
  | incompleteFields
  | validationFailed (errs : List (List Char))
  | raised
  | completed
deriving DecidableEq

/-- A result on which the submission was rejected before the advice call. -/
def isRejected : FormResult → Bool
  | .stoppedTooManyErrors => true
  | .stoppedRateLimited => true
  | .incompleteFields => true
  | .validationFailed _ => true
  | .raised => false
  | .completed => false

/-- The form-handling block (app.py lines 261-295): error-count ceiling,
rate limit, empty-field check, sanitize, validate, advice call, history
append and `last_request` update.  Returns the session state after the
submission, the trace of steps executed, and how the submission ended. -/
def formHandle (s : SessionState) (r : FormRequest) :
    SessionState × List Ev × FormResult :=
  if 3 < s.api_errors then
    (s, [.errCountCheck], .stoppedTooManyErrors)
  else if rateLimited s.last_request r.nowUs then
    (s, [.errCountCheck, .rateCheck], .stoppedRateLimited)
  else if !allFieldsFilled r.raw then
    (s, [.errCountCheck, .rateCheck, .emptyCheck], .incompleteFields)
  else
    let cleaned := cleanedFields r.raw
    let errs := validate_inputs (fieldsList cleaned)
    if errs ≠ [] then
      (s, [.errCountCheck, .rateCheck, .emptyCheck, .sanitizeEv, .validateEv],
        .validationFailed errs)
    else
      match get_career_advice s cleaned.interests cleaned.skills cleaned.education
          cleaned.goals r.resp with
      | (s1, none) =>
        (s1, [.errCountCheck, .rateCheck, .emptyCheck, .sanitizeEv, .validateEv,
          .adviceCall], .raised)
      | (s1, some advice) =>
        ({ s1 with
            history := s1.history ++
              [{ name := cleaned.user_name, timestamp := r.nowFmt,
                 inputs := cleaned, advice := advice }]
            last_request := some r.nowUs },
          [.errCountCheck, .rateCheck, .emptyCheck, .sanitizeEv, .validateEv,
            .adviceCall, .historyAppend], .completed)

/-! ### Concrete demonstration inputs (the spec's §8 scenario values) -/

def demoRaw : ProfileFields :=
  { user_name := ("Jane Doe").toList
    education := ("BTech CSE").toList
    skills := ("Python").toList
    goals := ("AI Engineer").toList
    interests := ("Machine Learning").toList }

def demoFmt : List Char := ("12 Oct 2026 10:00").toList

/-- A fresh session whose previous request happened at microsecond 0. -/
def recentReqState : SessionState := { initialSession with last_request := some 0 }

/-- A submission arriving 2 seconds after the previous request. -/
def earlyReq : FormRequest :=
  { raw := demoRaw, nowUs := 2000000, nowFmt := demoFmt,
    resp := .text (("## Path 1").toList) }

/-- A submission arriving one day and 2 seconds after the previous request. -/
def dayLaterReq : FormRequest :=
  { raw := demoRaw, nowUs := 86402000000, nowFmt := demoFmt,
    resp := .text (("## Path 1").toList) }

/-- A submission on which the external call raises `GenerativeServiceError`. -/
def svcErrReq : FormRequest :=
  { raw := demoRaw, nowUs := 0, nowFmt := demoFmt, resp := .serviceError [] }

/-- A submission on which the external call raises an unexpected exception. -/
def otherErrReq : FormRequest :=
  { raw := demoRaw, nowUs := 0, nowFmt := demoFmt, resp := .otherError }

/-- A session that has already accumulated more than three API errors. -/
def ceilingState : SessionState := { initialSession with api_errors := 9 }

/-! ### C3: the error-count ceiling -/

/-- C3: the form handler stops a submission with "too many errors" exactly
when `api_errors > 3`, regardless of the elapsed time (the request is
arbitrary); with `api_errors ≤ 3` the error-count rule never fires. -/
theorem error_ceiling_denies_iff (s : SessionState) (r : FormRequest) :
    (formHandle s r).2.2 = FormResult.stoppedTooManyErrors ↔ 3 < s.api_errors := by
  simp only [formHandle]
  split
  · rename_i h; simp [h]
  · rename_i h
    split
    · simp [h]
    · split
      · simp [h]
      · split
        · simp [h]
        · split <;> simp [h]

/-! ### C4: the order of the pipeline steps -/

/-- Every step the handler can take, in the order the source executes them:
error-count check, rate-limit check, empty-field check, sanitize, validate,
advice call, history append. -/
def fullTrace : List Ev :=
  [.errCountCheck, .rateCheck, .emptyCheck, .sanitizeEv, .validateEv,
    .adviceCall, .historyAppend]

/-- How many steps of `fullTrace` a submission with the given result ran. -/
def traceLen : FormResult → Nat
  | .stoppedTooManyErrors => 1
  | .stoppedRateLimited => 2
  | .incompleteFields => 3
  | .validationFailed _ => 5
  | .raised => 6
  | .completed => 7

/-- C4 (amended): the steps of every submission are an initial segment of
the fixed order error-count check, rate-limit check, empty-field check,
sanitize, validate, advice call, history append — so the Throttle Guard
runs BEFORE the Sanitizer and Validator — and a submission rejected by the
throttle, the empty-field check or validation never reaches the Advice
Client. -/
theorem pipeline_order_spec (s : SessionState) (r : FormRequest) :
    (formHandle s r).2.1 = fullTrace.take (traceLen (formHandle s r).2.2) ∧
    (isRejected (formHandle s r).2.2 &&
      (formHandle s r).2.1.contains Ev.adviceCall) = false := by
  simp only [formHandle]
  split
  · exact ⟨rfl, rfl⟩
  · split
    · exact ⟨rfl, rfl⟩
    · split
      · exact ⟨rfl, rfl⟩
      · split
        · exact ⟨rfl, rfl⟩
        · split <;> exact ⟨rfl, rfl⟩

/-- C4 counterexample to the claimed order: a concrete submission reaches
(and is stopped by) the rate-limit check of the Throttle Guard although the
Sanitizer and the Validator never ran on it, so sanitization/validation do
NOT precede the throttle check. -/
theorem throttle_runs_before_sanitizer :
    (formHandle recentReqState earlyReq).2.1 = [Ev.errCountCheck, Ev.rateCheck] ∧
    Ev.sanitizeEv ∉ (formHandle recentReqState earlyReq).2.1 ∧
    Ev.validateEv ∉ (formHandle recentReqState earlyReq).2.1 := by decide

/-! ### C2: the rate limit -/

/-- C2: evaluation of the code at the failing input. The previous request
happened at microsecond 0 and the new one arrives 86402 seconds (one day
and two seconds) later — an elapsed time far beyond 5 seconds — yet the
handler stops it as rate-limited, because line 266 reads
`(datetime.now() - last_request).seconds`, the seconds component of the
timedelta (elapsed seconds modulo one day, here 2), not the total elapsed
seconds. -/
theorem rate_limit_denies_day_old_request :
    recentReqState.api_errors = 0 ∧
    recentReqState.last_request = some 0 ∧
    5 * 1000000 ≤ dayLaterReq.nowUs ∧
    (formHandle recentReqState dayLaterReq).2.2 = FormResult.stoppedRateLimited := by
  decide

/-! ### C10: rejected submissions leave the session state unchanged -/

/-- C10: a submission rejected before the advice call — by the error-count
ceiling, the rate-limit check, the empty-field check or validation errors —
leaves the whole session state unchanged: history, api_errors, last_request
and the error flag all keep their prior values. -/
theorem rejected_submission_state_unchanged (s : SessionState) (r : FormRequest)
    (h : isRejected (formHandle s r).2.2 = true) :
    (formHandle s r).1 = s := by
  revert h
  simp only [formHandle]
  split
  · intro _; rfl
  · split
    · intro _; rfl
    · split
      · intro _; rfl
      · split
        · intro _; rfl
        · split
          · intro h; simp [isRejected] at h
          · intro h; simp [isRejected] at h

/-- Witness for `rejected_submission_state_unchanged`: a session over the
error ceiling rejects the concrete submission and is left unchanged. -/
theorem rejected_submission_state_unchanged_witness :
    isRejected (formHandle ceilingState earlyReq).2.2 = true ∧
    (formHandle ceilingState earlyReq).1 = ceilingState :=
  ⟨by decide, rejected_submission_state_unchanged ceilingState earlyReq (by decide)⟩

/-! ### C1: failed advice calls and the History Store -/

/-- The Advice Client never touches the history, whatever the outcome. -/
theorem get_career_advice_history (s : SessionState) (i sk e g : List Char)
    (resp : ApiResponse) :
    (get_career_advice s i sk e g resp).1.history = s.history := by
  cases resp with
  | text t =>
    rw [get_career_advice]
    split <;> rfl
  | serviceError d => rfl
  | otherError => rfl

/-- C1 (amended): when the advice call fails by raising — an empty response
(`ValueError`) or any unexpected exception — the exception propagates out of
the handler before the append at line 289, so the History Store is
unchanged. (A `GenerativeServiceError` instead RETURNS an advisory string,
which the handler appends as a normal entry; see the counterexample.) -/
theorem raising_failure_preserves_history (s : SessionState) (r : FormRequest)
    (h : r.resp = ApiResponse.otherError ∨ r.resp = ApiResponse.text []) :
    (formHandle s r).1.history = s.history := by
  simp only [formHandle]
  split
  · rfl
  · split
    · rfl
    · split
      · rfl
      · split
        · rfl
        · split
          · rename_i heq
            have h3 := get_career_advice_history s (cleanedFields r.raw).interests
              (cleanedFields r.raw).skills (cleanedFields r.raw).education
              (cleanedFields r.raw).goals r.resp
            rw [heq] at h3
            exact h3
          · rename_i heq
            have h2 := congrArg Prod.snd heq
            rcases h with h | h <;> rw [h] at h2 <;>
              simp [get_career_advice] at h2

/-- Witness for `raising_failure_preserves_history`: an unexpected error on
the concrete submission leaves the (empty) history empty. -/
theorem raising_failure_preserves_history_witness :
    (formHandle initialSession otherErrReq).1.history = initialSession.history :=
  raising_failure_preserves_history initialSession otherErrReq (Or.inl rfl)

/-- C1 counterexample to the claim as stated: a submission whose advice
call fails with `GenerativeServiceError` (a failed request) IS appended to
the History Store — the store grows from empty to one entry, and that
entry's advice text is the advisory error string. -/
theorem service_error_appends_entry :
    svcErrReq.resp = ApiResponse.serviceError [] ∧
    initialSession.history = [] ∧
    (formHandle initialSession svcErrReq).1.history.length = 1 ∧
    (formHandle initialSession svcErrReq).1.history.map (fun e => e.advice) =
      [apiErrorMsg []] := by decide

/-! ### C7: the History Store across a session -/

/-- The advice string a request's outcome yields when the handler appends. -/
def adviceTextOf : ApiResponse → List Char
  | .text t => t
  | .serviceError d => apiErrorMsg d
  | .otherError => []

/-- The HistoryEntry the handler appends for a completed request
(app.py lines 289-294). -/
def entryOf (r : FormRequest) : HistoryEntry :=
  { name := (cleanedFields r.raw).user_name, timestamp := r.nowFmt,
    inputs := cleanedFields r.raw, advice := adviceTextOf r.resp }

/-- The external call returned a non-empty advice text. -/
def isSuccessText : ApiResponse → Bool
  | .text t => !t.isEmpty
  | .serviceError _ => false
  | .otherError => false

/-- A session: one submission after another, threading the state. -/
def runSession : SessionState → List FormRequest → SessionState
  | s, [] => s
  | s, r :: rs => runSession (formHandle s r).1 rs

/-- Every submission of the sequence completes as a successful advice
request (the external call returned non-empty text and the handler ran to
the append). -/
def allSucceed : SessionState → List FormRequest → Bool
  | _, [] => true
  | s, r :: rs =>
    decide ((formHandle s r).2.2 = FormResult.completed) && isSuccessText r.resp &&
      allSucceed (formHandle s r).1 rs

theorem formHandle_completed_history (s : SessionState) (r : FormRequest)
    (hres : (formHandle s r).2.2 = FormResult.completed)
    (hok : isSuccessText r.resp = true) :
    (formHandle s r).1.history = s.history ++ [entryOf r] := by
  revert hres
  simp only [formHandle]
  split
  · intro hres; simp at hres
  · split
    · intro hres; simp at hres
    · split
      · intro hres; simp at hres
      · split
        · intro hres; simp at hres
        · split
          · intro hres; simp at hres
          · rename_i heq
            intro _
            cases hresp : r.resp with
            | text t =>
              cases t with
              | nil => rw [hresp] at hok; simp [isSuccessText] at hok
              | cons a as =>
                rw [hresp] at heq
                simp only [get_career_advice] at heq
                rw [if_neg (by simp)] at heq
                rw [Prod.mk.injEq, Option.some.injEq] at heq
                obtain ⟨h1, h2⟩ := heq
                subst h1
                subst h2
                simp [entryOf, adviceTextOf, hresp]
            | serviceError d => rw [hresp] at hok; simp [isSuccessText] at hok
            | otherError =>
              rw [hresp] at heq
              simp [get_career_advice] at heq

theorem runSession_history : ∀ (reqs : List FormRequest) (s : SessionState),
    allSucceed s reqs = true →
    (runSession s reqs).history = s.history ++ reqs.map entryOf := by
  intro reqs
  induction reqs with
  | nil => intro s _; simp [runSession]
  | cons r rs ih =>
    intro s h
    rw [allSucceed] at h
    simp only [Bool.and_eq_true, decide_eq_true_eq] at h
    obtain ⟨⟨hres, hok⟩, hrest⟩ := h
    rw [runSession, ih _ hrest, formHandle_completed_history s r hres hok]
    simp

theorem take_append_self (l1 l2 : List HistoryEntry) :
    (l1 ++ l2).take l1.length = l1 := by
  induction l1 with
  | nil => rfl
  | cons a t ih => simp [ih]

/-- One submission never removes or rewrites existing history entries: the
state after it still starts with the old history. -/
theorem formHandle_history_grows (s : SessionState) (r : FormRequest) :
    (formHandle s r).1.history.take s.history.length = s.history := by
  simp only [formHandle]
  split
  · exact List.take_length _
  · split
    · exact List.take_length _
    · split
      · exact List.take_length _
      · split
        · exact List.take_length _
        · split
          · rename_i s1 heq
            have h3 := get_career_advice_history s (cleanedFields r.raw).interests
              (cleanedFields r.raw).skills (cleanedFields r.raw).education
              (cleanedFields r.raw).goals r.resp
            rw [heq] at h3
            have h4 : s1.history = s.history := h3
            show List.take s.history.length s1.history = s.history
            rw [h4]
            exact List.take_length _
          · rename_i s1 advice heq
            have h3 := get_career_advice_history s (cleanedFields r.raw).interests
              (cleanedFields r.raw).skills (cleanedFields r.raw).education
              (cleanedFields r.raw).goals r.resp
            rw [heq] at h3
            have h4 : s1.history = s.history := h3
            show List.take s.history.length (s1.history ++ [_]) = s.history
            rw [h4]
            exact take_append_self s.history _

/-- C7: starting from a fresh session, after a sequence of N successful
advice requests the History Store holds exactly the N corresponding entries
in insertion order, its latest element (`history[-1]`, app.py line 299) is
the Nth appended entry, iterating it reversed (app.py line 372) yields
reverse-insertion order, and no submission ever updates or deletes an entry
once appended. -/
theorem history_store_spec (reqs : List FormRequest)
    (h : allSucceed initialSession reqs = true) :
    (runSession initialSession reqs).history = reqs.map entryOf ∧
    (runSession initialSession reqs).history.length = reqs.length ∧
    (runSession initialSession reqs).history.getLast? = (reqs.map entryOf).getLast? ∧
    (runSession initialSession reqs).history.reverse = (reqs.map entryOf).reverse ∧
    ∀ (s : SessionState) (r : FormRequest),
      (formHandle s r).1.history.take s.history.length = s.history := by
  have hmain := runSession_history reqs initialSession h
  rw [show initialSession.history = [] from rfl, List.nil_append] at hmain
  exact ⟨hmain, by rw [hmain, List.length_map], by rw [hmain], by rw [hmain],
    fun s r => formHandle_history_grows s r⟩

/-- A first successful request at microsecond 0. -/
def okReq1 : FormRequest :=
  { raw := demoRaw, nowUs := 0, nowFmt := demoFmt,
    resp := .text (("## Path 1").toList) }

/-- A second successful request six seconds later. -/
def okReq2 : FormRequest :=
  { raw := demoRaw, nowUs := 6000000, nowFmt := ("12 Oct 2026 10:01").toList,
    resp := .text (("## Path 2").toList) }

/-- Witness for `history_store_spec`: a concrete session of two successful
requests ends with exactly those two entries in insertion order. -/
theorem history_store_spec_witness :
    allSucceed initialSession [okReq1, okReq2] = true ∧
    (runSession initialSession [okReq1, okReq2]).history =
      [okReq1, okReq2].map entryOf :=
  ⟨by decide, (history_store_spec [okReq1, okReq2] (by decide)).1⟩

/-! ### C9: `generate_pdf` (app.py lines 107-133)

The built document is modelled as the reportlab `story` list the source
assembles: a Title paragraph, then per input line a paragraph (Heading2
when the line starts with '#', BodyText otherwise) and a small spacer.
Whether `doc.build` (or any reportlab constructor inside the `try`) throws
is external behaviour, passed in as a flag: when it does, the except block
reports the failure and returns `None`. -/

inductive PdfStyle where
  | title
  | heading2
  | bodyText
deriving DecidableEq

inductive Flowable where
  | paragraph (text : List Char) (style : PdfStyle)
  | spacer (width height : Nat)
deriving DecidableEq

/-- Python's `content.split('\n')`. -/
def splitNl : List Char → List (List Char)
  | [] => [[]]
  | c :: t =>
    if c = '\n' then [] :: splitNl t
    else
      match splitNl t with
      | [] => [[c]]
      | l :: ls => (c :: l) :: ls

/-- `line.startswith('#')` (app.py line 121). -/
def startsHash : List Char → Bool
  | [] => false
  | c :: _ => c == '#'

/-- The per-line flowables of the loop at app.py lines 120-126. -/
def storyLines : List (List Char) → List Flowable
  | [] => []
  | line :: rest =>
    Flowable.paragraph line (if startsHash line then .heading2 else .bodyText) ::
      Flowable.spacer 1 3 :: storyLines rest

/-- The complete `story` list (app.py lines 113-126): the bolded title in
Title style, a spacer, then the per-line flowables. -/
def pdfStory (content title : List Char) : List Flowable :=
  Flowable.paragraph (("<b>").toList ++ title ++ ("</b>").toList) .title ::
    Flowable.spacer 1 12 :: storyLines (splitNl content)

/-- `generate_pdf` (app.py lines 107-133): the built document, or `None`
when document construction throws. -/
def generate_pdf (buildThrows : Bool) (content title : List Char) :
    Option (List Flowable) :=
  if buildThrows then none else some (pdfStory content title)

def isParagraphFl : Flowable → Bool
  | .paragraph _ _ => true
  | .spacer _ _ => false

/-- The number of non-empty lines of the content. -/
def nonEmptyLineCount (content : List Char) : Nat :=
  (splitNl content).countP (fun l => !l.isEmpty)

theorem storyLines_countP (ls : List (List Char)) :
    (storyLines ls).countP isParagraphFl = ls.length := by
  induction ls with
  | nil => rfl
  | cons line rest ih =>
    rw [storyLines, List.countP_cons, List.countP_cons, ih]
    simp [isParagraphFl]

/-- C9: for content with N non-empty lines the document holds at least N
text blocks (one paragraph per line — heading style for '#' lines, body
style otherwise — plus the title paragraph), and when document construction
throws, `generate_pdf` returns the null result instead of propagating. -/
theorem generate_pdf_spec (content title : List Char) :
    nonEmptyLineCount content ≤ (pdfStory content title).countP isParagraphFl ∧
    generate_pdf true content title = none ∧
    generate_pdf false content title = some (pdfStory content title) := by
  refine ⟨?_, rfl, rfl⟩
  rw [pdfStory, List.countP_cons, List.countP_cons, storyLines_countP]
  calc nonEmptyLineCount content ≤ (splitNl content).length :=
        List.countP_le_length _
    _ ≤ _ := by simp [isParagraphFl]

/-! ### C8: `export_json` (app.py lines 135-137)

`json.dumps(data, indent=2, ensure_ascii=False)` on one HistoryEntry dict.
The serializer below reproduces exactly the text json.dumps emits for the
entry dict of app.py lines 289-294 (keys name, timestamp, inputs, advice;
inner keys in the `cleaned` dict order), with Python's ESCAPE_DCT string
escaping; `ensure_ascii=False` leaves every character at or above 0x20 —
non-ASCII included — unescaped.  A recursive-descent parser for that JSON
document witnesses the round trip. -/

def hexDigitChar : Nat → Char
  | 0 => '0'
  | 1 => '1'
  | 2 => '2'
  | 3 => '3'
  | 4 => '4'
  | 5 => '5'
  | 6 => '6'
  | 7 => '7'
  | 8 => '8'
  | 9 => '9'
  | 10 => 'a'
  | 11 => 'b'
  | 12 => 'c'
  | 13 => 'd'
  | 14 => 'e'
  | 15 => 'f'
  | _ => '0'

/-- How `json.dumps(..., ensure_ascii=False)` writes one character:
backslash, double quote, \b \f \n \r \t and the remaining control
characters below 0x20 are escaped, everything else is emitted as is. -/
def escChar (c : Char) : List Char :=
  if c = '\\' then ['\\', '\\']
  else if c = '"' then ['\\', '"']
  else if c = '\n' then ['\\', 'n']
  else if c = '\t' then ['\\', 't']
  else if c = '\r' then ['\\', 'r']
  else if c = Char.ofNat 8 then ['\\', 'b']
  else if c = Char.ofNat 12 then ['\\', 'f']
  else if c.toNat < 32 then
    ['\\', 'u', '0', '0', hexDigitChar (c.toNat / 16), hexDigitChar (c.toNat % 16)]
  else [c]

/-- The body of a JSON string literal for the given text. -/
def escape : List Char → List Char
  | [] => []
  | c :: t => escChar c ++ escape t

def hexVal (c : Char) : Option Nat :=
  if '0' ≤ c ∧ c ≤ '9' then some (c.toNat - 48)
  else if 'a' ≤ c ∧ c ≤ 'f' then some (c.toNat - 87)
  else if 'A' ≤ c ∧ c ≤ 'F' then some (c.toNat - 55)
  else none

def unescChar (e : Char) : Option Char :=
  if e = 'n' then some '\n'
  else if e = 't' then some '\t'
  else if e = 'r' then some '\r'
  else if e = '"' then some '"'
  else if e = '\\' then some '\\'
  else if e = 'b' then some (Char.ofNat 8)
  else if e = 'f' then some (Char.ofNat 12)
  else none

/-- Parse the remainder of a JSON string literal (the opening quote already
consumed): unescape until the closing quote, returning the decoded text and
the input after the quote. -/
def parseStrAux : List Char → Option (List Char × List Char)
  | [] => none
  | c :: l =>
    if c = '"' then some ([], l)
    else if c = '\\' then
      match l with
      | [] => none
      | e :: l2 =>
        if e = 'u' then
          match l2 with
          | d1 :: d2 :: d3 :: d4 :: l3 =>
            match hexVal d1, hexVal d2, hexVal d3, hexVal d4 with
            | some a, some b, some cc, some d =>
              match parseStrAux l3 with
              | some (s, r) => some (Char.ofNat (4096 * a + 256 * b + 16 * cc + d) :: s, r)
              | none => none
            | _, _, _, _ => none
          | _ => none
        else
          match unescChar e with
          | some d =>
            match parseStrAux l2 with
            | some (s, r) => some (d :: s, r)
            | none => none
          | none => none
    else
      match parseStrAux l with
      | some (s, r) => some (c :: s, r)
      | none => none

/-- Consume an expected literal piece of the document skeleton. -/
def expectLit : List Char → List Char → Option (List Char)
  | [], input => some input
  | _ :: _, [] => none
  | c :: t, d :: input => if c = d then expectLit t input else none

def jl1 : List Char := ("\x7b\n  \"name\": \"").toList
def jl2 : List Char := (",\n  \"timestamp\": \"").toList
def jl3 : List Char := (",\n  \"inputs\": \x7b\n    \"user_name\": \"").toList
def jl4 : List Char := (",\n    \"education\": \"").toList
def jl5 : List Char := (",\n    \"skills\": \"").toList
def jl6 : List Char := (",\n    \"goals\": \"").toList
def jl7 : List Char := (",\n    \"interests\": \"").toList
def jl8 : List Char := ("\n  \x7d,\n  \"advice\": \"").toList
def jl9 : List Char := ("\n\x7d").toList

/-- `export_json` (app.py lines 135-137) applied to one HistoryEntry dict:
the exact indented text `json.dumps(entry, indent=2, ensure_ascii=False)`
produces, field insertion order preserved. -/
def export_json_entry (e : HistoryEntry) : List Char :=
  jl1 ++ (escape e.name ++ '"' ::
    (jl2 ++ (escape e.timestamp ++ '"' ::
      (jl3 ++ (escape e.inputs.user_name ++ '"' ::
        (jl4 ++ (escape e.inputs.education ++ '"' ::
          (jl5 ++ (escape e.inputs.skills ++ '"' ::
            (jl6 ++ (escape e.inputs.goals ++ '"' ::
              (jl7 ++ (escape e.inputs.interests ++ '"' ::
                (jl8 ++ (escape e.advice ++ '"' :: jl9)))))))))))))))

/-- Parse the JSON document `export_json_entry` emits back into a
HistoryEntry. -/
def parseEntry (input : List Char) : Option HistoryEntry :=
  match expectLit jl1 input with
  | none => none
  | some i1 =>
  match parseStrAux i1 with
  | none => none
  | some (nm, i2) =>
  match expectLit jl2 i2 with
  | none => none
  | some i3 =>
  match parseStrAux i3 with
  | none => none
  | some (ts, i4) =>
  match expectLit jl3 i4 with
  | none => none
  | some i5 =>
  match parseStrAux i5 with
  | none => none
  | some (un, i6) =>
  match expectLit jl4 i6 with
  | none => none
  | some i7 =>
  match parseStrAux i7 with
  | none => none
  | some (ed, i8) =>
  match expectLit jl5 i8 with
  | none => none
  | some i9 =>
  match parseStrAux i9 with
  | none => none
  | some (sk, i10) =>
  match expectLit jl6 i10 with
  | none => none
  | some i11 =>
  match parseStrAux i11 with
  | none => none
  | some (gl, i12) =>
  match expectLit jl7 i12 with
  | none => none
  | some i13 =>
  match parseStrAux i13 with
  | none => none
  | some (its, i14) =>
  match expectLit jl8 i14 with
  | none => none
  | some i15 =>
  match parseStrAux i15 with
  | none => none
  | some (adv, i16) =>
  match expectLit jl9 i16 with
  | none => none
  | some i17 =>
    if i17 = [] then
      some { name := nm, timestamp := ts,
             inputs := { user_name := un, education := ed, skills := sk,
                         goals := gl, interests := its },
             advice := adv }
    else none

theorem hexVal_hexDigitChar (n : Nat) (h : n < 16) :
    hexVal (hexDigitChar n) = some n := by
  interval_cases n <;> decide

theorem parseStrAux_closeQuote (l : List Char) :
    parseStrAux ('"' :: l) = some ([], l) := by
  conv_lhs => rw [parseStrAux.eq_def]
  simp only [if_pos rfl, if_true]

theorem parseStrAux_plain (c : Char) (l : List Char) (hq : c ≠ '"') (hb : c ≠ '\\') :
    parseStrAux (c :: l) =
      match parseStrAux l with
      | some (s, r) => some (c :: s, r)
      | none => none := by
  conv_lhs => rw [parseStrAux.eq_def]
  simp only [if_neg hq, if_neg hb]

theorem parseStrAux_escapePair (e d : Char) (l : List Char)
    (hu : e ≠ 'u') (hd : unescChar e = some d) :
    parseStrAux ('\\' :: e :: l) =
      match parseStrAux l with
      | some (s, r) => some (d :: s, r)
      | none => none := by
  conv_lhs => rw [parseStrAux.eq_def]
  simp only [if_neg (show ('\\' : Char) ≠ '"' from by decide), if_pos rfl,
    if_true, if_neg hu, hd]

theorem parseStrAux_hex (d1 d2 d3 d4 : Char) (a b cc d : Nat) (l : List Char)
    (h1 : hexVal d1 = some a) (h2 : hexVal d2 = some b)
    (h3 : hexVal d3 = some cc) (h4 : hexVal d4 = some d) :
    parseStrAux ('\\' :: 'u' :: d1 :: d2 :: d3 :: d4 :: l) =
      match parseStrAux l with
      | some (s, r) => some (Char.ofNat (4096 * a + 256 * b + 16 * cc + d) :: s, r)
      | none => none := by
  conv_lhs => rw [parseStrAux.eq_def]
  simp only [if_neg (show ('\\' : Char) ≠ '"' from by decide), if_pos rfl,
    if_true, h1, h2, h3, h4]

theorem parseStrAux_escape : ∀ (s rest : List Char),
    parseStrAux (escape s ++ '"' :: rest) = some (s, rest) := by
  intro s
  induction s with
  | nil => intro rest; rw [escape, List.nil_append, parseStrAux_closeQuote]
  | cons c t ih =>
    intro rest
    rw [escape, List.append_assoc]
    by_cases h1 : c = '\\'
    · subst h1
      rw [show escChar '\\' = ['\\', '\\'] from by decide]
      simp only [List.cons_append, List.nil_append]
      rw [parseStrAux_escapePair '\\' '\\' _ (by decide) (by decide), ih]
    · by_cases h2 : c = '"'
      · subst h2
        rw [show escChar '"' = ['\\', '"'] from by decide]
        simp only [List.cons_append, List.nil_append]
        rw [parseStrAux_escapePair '"' '"' _ (by decide) (by decide), ih]
      · by_cases h3 : c = '\n'
        · subst h3
          rw [show escChar '\n' = ['\\', 'n'] from by decide]
          simp only [List.cons_append, List.nil_append]
          rw [parseStrAux_escapePair 'n' '\n' _ (by decide) (by decide), ih]
        · by_cases h4 : c = '\t'
          · subst h4
            rw [show escChar '\t' = ['\\', 't'] from by decide]
            simp only [List.cons_append, List.nil_append]
            rw [parseStrAux_escapePair 't' '\t' _ (by decide) (by decide), ih]
          · by_cases h5 : c = '\r'
            · subst h5
              rw [show escChar '\r' = ['\\', 'r'] from by decide]
              simp only [List.cons_append, List.nil_append]
              rw [parseStrAux_escapePair 'r' '\r' _ (by decide) (by decide), ih]
            · by_cases h6 : c = Char.ofNat 8
              · subst h6
                rw [show escChar (Char.ofNat 8) = ['\\', 'b'] from by decide]
                simp only [List.cons_append, List.nil_append]
                rw [parseStrAux_escapePair 'b' (Char.ofNat 8) _ (by decide)
                  (by decide), ih]
              · by_cases h7 : c = Char.ofNat 12
                · subst h7
                  rw [show escChar (Char.ofNat 12) = ['\\', 'f'] from by decide]
                  simp only [List.cons_append, List.nil_append]
                  rw [parseStrAux_escapePair 'f' (Char.ofNat 12) _ (by decide)
                    (by decide), ih]
                · by_cases h8 : c.toNat < 32
                  · rw [show escChar c = ['\\', 'u', '0', '0',
                      hexDigitChar (c.toNat / 16), hexDigitChar (c.toNat % 16)] from by
                        rw [escChar, if_neg h1, if_neg h2, if_neg h3, if_neg h4,
                          if_neg h5, if_neg h6, if_neg h7, if_pos h8]]
                    simp only [List.cons_append, List.nil_append]
                    rw [parseStrAux_hex '0' '0' (hexDigitChar (c.toNat / 16))
                      (hexDigitChar (c.toNat % 16)) 0 0 (c.toNat / 16)
                      (c.toNat % 16) _ (by decide) (by decide)
                      (hexVal_hexDigitChar _ (by omega))
                      (hexVal_hexDigitChar _ (by omega)), ih]
                    have hc : 4096 * 0 + 256 * 0 + 16 * (c.toNat / 16) +
                        c.toNat % 16 = c.toNat := by omega
                    simp only [hc, Char.ofNat_toNat]
                  · rw [show escChar c = [c] from by
                      rw [escChar, if_neg h1, if_neg h2, if_neg h3, if_neg h4,
                        if_neg h5, if_neg h6, if_neg h7, if_neg h8]]
                    simp only [List.cons_append, List.nil_append]
                    rw [parseStrAux_plain c _ h2 h1, ih]

theorem expectLit_append : ∀ (lit rest : List Char),
    expectLit lit (lit ++ rest) = some rest := by
  intro lit
  induction lit with
  | nil => intro rest; rfl
  | cons c t ih => intro rest; rw [List.cons_append, expectLit, if_pos rfl, ih]

theorem expectLit_self (lit : List Char) : expectLit lit lit = some [] := by
  have h := expectLit_append lit []
  rwa [List.append_nil] at h

/-- C8: parsing the JSON export of a HistoryEntry reproduces every original
field value exactly — non-ASCII characters included, since they are
serialized unescaped — with the indented skeleton and the field insertion
order fixed by `export_json_entry`. -/
theorem export_json_round_trip (e : HistoryEntry) :
    parseEntry (export_json_entry e) = some e := by
  rw [export_json_entry]
  conv_lhs => rw [parseEntry.eq_def]
  simp only [expectLit_append, expectLit_self, parseStrAux_escape]
  simp
